import Mathlib

set_option maxRecDepth 100000

/-!
Verification development for the rich-text block conversion and slug-uniqueness
subsystem of the Hammer repository.

Shallow embedding of:
  * `unique_slug` (src/create_insights.py, lines 22-34),
  * `html_to_editorjs_blocks` — the soup-based variant (src/myApp/views.py,
    lines 101-196) and the line-based variant (src/create_insights.py,
    lines 37-88),
  * `_render_block` (src/myApp/templatetags/editorjs.py, lines 14-58).

Python dicts that are serialized as JSON are embedded as a `Json` inductive;
`uuid.uuid4()` and `timezone.now()` are nondeterministic inputs and are
embedded as explicit parameters (an id oracle `ids : Nat → String` indexed by
the number of blocks emitted so far, and a timestamp `now : Int`).
Database existence queries (`Insight.objects.filter(slug=...).exists()`) are
embedded as the predicate parameter `P : String → Bool`, exactly as the spec
itself describes the allocator (`exists` is a caller-supplied predicate).
-/

/-- JSON-like values, the shape of the Python dicts built by the converters. -/
inductive Json where
  | str (s : String)
  | num (n : Int)
  | arr (xs : List Json)
  | obj (fields : List (String × Json))

/-- Keys of a JSON object, in order; `[]` for non-objects. -/
def objKeys : Json → List String
  | .obj fields => fields.map Prod.fst
  | _ => []

/-- Look up a key in a field list (Python `dict` access / `.get`). -/
def lookupField (key : String) : List (String × Json) → Option Json
  | [] => none
  | (k, v) :: fs => if k = key then some v else lookupField key fs

/- ----------------------------------------------------------------------
Python string primitives used by the source.
---------------------------------------------------------------------- -/

/-- Python `str` whitespace (ASCII): the characters stripped by `str.strip()`. -/
def isPySpace (c : Char) : Bool :=
  c = ' ' || c = '\t' || c = '\n' || c = '\r' || c = '\x0b' || c = '\x0c'

/-- Strip characters satisfying `p` from both ends (Python `str.strip(chars)`). -/
def pyStripP (p : Char → Bool) (s : String) : String :=
  ⟨((s.data.dropWhile p).reverse.dropWhile p).reverse⟩

/-- Python `str.strip()` with no argument: trim whitespace from both ends. -/
def pyStrip (s : String) : String := pyStripP isPySpace s

/-- Does `cs` start with `ps`? -/
def startsWithChars : List Char → List Char → Bool
  | [], _ => true
  | _ :: _, [] => false
  | p :: ps, c :: cs => p = c && startsWithChars ps cs

/-- Python `s.startswith(pre)`. -/
def pyStartsWith (s pre : String) : Bool := startsWithChars pre.data s.data

/-- Python `s.split("\n")`: split at every newline, keeping empty pieces
(`acc` holds the current piece, reversed). -/
def splitNlAux (acc : List Char) : List Char → List String
  | [] => [⟨acc.reverse⟩]
  | c :: r => if c = '\n' then ⟨acc.reverse⟩ :: splitNlAux [] r else splitNlAux (c :: acc) r

/-- Python `s.split("\n")`. -/
def splitNl (s : String) : List String := splitNlAux [] s.data

/-- Rest of the list after the first `'>'`; `none` when there is no `'>'`. -/
def dropToGt : List Char → Option (List Char)
  | [] => none
  | c :: r => if c = '>' then some r else dropToGt r

/-- Characters before the first `'>'` (all of them when there is no `'>'`). -/
def takeToGt : List Char → List Char
  | [] => []
  | c :: r => if c = '>' then [] else c :: takeToGt r

/-- Python `re.sub(r"<[^>]+>", "", s)` on a char list: scanning left to right,
a `'<'` followed by at least one non-`'>'` character and then a `'>'` is
removed together with everything up to that first `'>'`; any other character
is kept.  `fuel` only bounds the recursion; it is called with more fuel than
characters, so the base case is never reached. -/
def stripTagsAux : Nat → List Char → List Char
  | 0, cs => cs
  | _ + 1, [] => []
  | fuel + 1, '<' :: r =>
    match r with
    | '>' :: r2 => '<' :: '>' :: stripTagsAux fuel r2
    | _ =>
      match dropToGt r with
      | some rest => stripTagsAux fuel rest
      | none => '<' :: r
  | fuel + 1, c :: r => c :: stripTagsAux fuel r

/-- Python `re.sub(r"<[^>]+>", "", s)`. -/
def stripTags (s : String) : String :=
  ⟨stripTagsAux (s.data.length + 1) s.data⟩

/- ----------------------------------------------------------------------
Slug Allocator: `unique_slug` (src/create_insights.py, lines 22-34).

`django.utils.text.slugify` (allow_unicode=False) is
    value = unicodedata.normalize("NFKD", value).encode("ascii", "ignore").decode("ascii")
    value = re.sub(r"[^\w\s-]", "", value.lower())
    return re.sub(r"[-\s]+", "-", value).strip("-_")
It is embedded for ASCII inputs (NFKD + ascii-encode is the identity on
ASCII; non-ASCII characters, which no claim exercises, are dropped as the
`"ignore"` error handler would drop unencodable ones).
---------------------------------------------------------------------- -/

/-- ASCII `\w`: alphanumeric or underscore (after lower-casing). -/
def isWordChar (c : Char) : Bool := c.isAlphanum || c = '_'

/-- Collapse each run of hyphens/whitespace to a single `'-'`
(`re.sub(r"[-\s]+", "-", value)`); `prevDash` records whether the previous
kept character already came from such a run. -/
def collapseDashRuns (prevDash : Bool) : List Char → List Char
  | [] => []
  | c :: cs =>
    if c = '-' || isPySpace c then
      if prevDash then collapseDashRuns true cs
      else '-' :: collapseDashRuns true cs
    else c :: collapseDashRuns false cs

/-- `django.utils.text.slugify` on ASCII input (see section comment). -/
def slugify (s : String) : String :=
  let ascii := (s.data.filter (fun c => c.toNat < 128)).map Char.toLower
  let kept := ascii.filter (fun c => isWordChar c || isPySpace c || c = '-')
  pyStripP (fun c => c = '-' || c = '_') ⟨collapseDashRuns false kept⟩

/-- The normalized seed: `(slugify(base)[:60] or "post").strip("-")`. -/
def slug_seed (base : String) : String :=
  let s := (slugify base).take 60
  pyStripP (fun c => c = '-') (if s = "" then "post" else s)

/-- The `while True` collision loop of `unique_slug`, trying
`seed-i`, `seed-(i+1)`, … .  The loop has no bound in the source; `fuel`
makes it a total function, with `none` meaning "did not terminate within
`fuel` iterations". -/
def slug_try (P : String → Bool) (seed : String) : Nat → Nat → Option String
  | _, 0 => none
  | i, fuel + 1 =>
    let trial := seed ++ "-" ++ toString i
    if P trial then slug_try P seed (i + 1) fuel else some trial

/-- `unique_slug(base)` (src/create_insights.py, lines 22-34), with the
database query `Insight.objects.filter(slug=...).exists()` embedded as the
predicate `P` and the unbounded loop given `fuel`. -/
def unique_slug (P : String → Bool) (base : String) (fuel : Nat) : Option String :=
  let seed := slug_seed base
  if !(P seed) then some seed else slug_try P seed 2 fuel

/-- Candidate sequence the allocator probes: `seed, seed-2, seed-3, …`. -/
def slug_cand (base : String) : Nat → String
  | 0 => slug_seed base
  | k + 1 => slug_seed base ++ "-" ++ toString (k + 2)

/- ----------------------------------------------------------------------
Parsed HTML, as BeautifulSoup with the `html.parser` builder exposes it.
A node is a tag element with children, or a text node.
---------------------------------------------------------------------- -/

/-- A node of the parse tree built by `BeautifulSoup(html, "html.parser")`. -/
inductive HNode where
  | elem (name : String) (children : List HNode)
  | text (s : String)

mutual

/-- BeautifulSoup `get_text()`: concatenation of all text descendants. -/
def HNode.getText : HNode → String
  | .text s => s
  | .elem _ cs => getTextList cs

/-- `get_text()` over a child list. -/
def getTextList : List HNode → String
  | [] => ""
  | n :: ns => n.getText ++ getTextList ns

end

mutual

/-- `find_all('li')` from a node: all descendant elements named `li`
(nested ones included), in document order; the node itself is excluded
by the callers below, which start from a child list. -/
def findLisNode : HNode → List HNode
  | .text _ => []
  | .elem n cs => (if n = "li" then [HNode.elem n cs] else []) ++ findLisList cs

/-- `find_all('li')` over a child list. -/
def findLisList : List HNode → List HNode
  | [] => []
  | n :: ns => findLisNode n ++ findLisList ns

end

mutual

/-- `soup.body`: the first element named `body` in document order, here
returning its child list (`None` → `none` when no `body` tag exists —
the `html.parser` builder never synthesizes one). -/
def findBodyNode : HNode → Option (List HNode)
  | .text _ => none
  | .elem n cs => if n = "body" then some cs else findBody cs

/-- `soup.body` over a node list. -/
def findBody : List HNode → Option (List HNode)
  | [] => none
  | n :: ns =>
    match findBodyNode n with
    | some r => some r
    | none => findBody ns

end

/-- `find_all(recursive=False)`: the direct children that are tag elements
(text nodes are not returned by `find_all`). -/
def tagsOnly : List HNode → List HNode
  | [] => []
  | HNode.elem n cs :: ns => HNode.elem n cs :: tagsOnly ns
  | HNode.text _ :: ns => tagsOnly ns

/-- Characters before the first `'<'`. -/
def takeToLt : List Char → List Char
  | [] => []
  | c :: r => if c = '<' then [] else c :: takeToLt r

/-- Characters from the first `'<'` on. -/
def dropToLt : List Char → List Char
  | [] => []
  | c :: r => if c = '<' then c :: r else dropToLt r

/-- Parser model of `BeautifulSoup(html, "html.parser")` on the well-formed,
attribute-free, lower-case tag subset that the call sites feed it:
`<name>` opens an element, `</name>` closes the innermost matching one,
anything else is text.  A stray close tag is ignored, an unclosed element
swallows the rest of the input, and a `'<'` never followed by `'>'` is kept
as text — matching `html.parser`'s error recovery on these shapes.
`html.parser` quirks outside this subset (attributes, void elements,
entity references, comments) are out of scope: no call site and no claim
exercises them.  Returns the nodes parsed up to the close tag named `stop`
(or the end of input) together with the remaining characters; `fuel`
exceeds the character count at every call, so the base case is unreachable. -/
def parseNodes : Nat → List Char → Option String → List HNode × List Char
  | 0, cs, _ => ([], cs)
  | _ + 1, [], _ => ([], [])
  | fuel + 1, '<' :: '/' :: r, stop =>
    let name : String := ⟨takeToGt r⟩
    let rest := (dropToGt r).getD []
    if stop = some name then ([], rest)
    else parseNodes fuel rest stop
  | fuel + 1, '<' :: r, stop =>
    match dropToGt r with
    | none => ([HNode.text ⟨'<' :: r⟩], [])
    | some rest =>
      let name : String := ⟨takeToGt r⟩
      let (children, rest2) := parseNodes fuel rest (some name)
      let (siblings, rest3) := parseNodes fuel rest2 stop
      (HNode.elem name children :: siblings, rest3)
  | fuel + 1, c :: r, stop =>
    let (nodes, rest2) := parseNodes fuel (dropToLt r) stop
    (HNode.text ⟨c :: takeToLt r⟩ :: nodes, rest2)

/-- `BeautifulSoup(html, "html.parser")`: the top-level node list. -/
def parseHtml (s : String) : List HNode :=
  (parseNodes (s.data.length + 1) s.data none).1

/- ----------------------------------------------------------------------
Block Converter, soup-based variant
(`html_to_editorjs_blocks`, src/myApp/views.py lines 101-196).
---------------------------------------------------------------------- -/

/-- The common shell of every emitted block:
`{"id": ..., "type": ..., "data": ...}` (key order as in the source). -/
def mkBlock (id ty : String) (data : Json) : Json :=
  .obj [("id", .str id), ("type", .str ty), ("data", data)]

/-- The top-level dict both converters return:
`{"time": ..., "blocks": ..., "version": "2.28.2"}` (key order as in the
source). -/
def topDoc (now : Int) (blocks : List Json) : Json :=
  .obj [("time", .num now), ("blocks", .arr blocks), ("version", .str "2.28.2")]

/-- `element.name in ['h1',...,'h6']`, with `level = int(element.name[1])`. -/
def headerLevel : String → Option Int
  | "h1" => some 1
  | "h2" => some 2
  | "h3" => some 3
  | "h4" => some 4
  | "h5" => some 5
  | "h6" => some 6
  | _ => none

/-- `[li.get_text().strip() for li in element.find_all('li')]`. -/
def liTexts (cs : List HNode) : List String :=
  (findLisList cs).map (fun li => pyStrip li.getText)

/-- `process_element` (src/myApp/views.py lines 115-190): the per-element
`type`/`data` pair of the block appended, or `none` when the element is
skipped.  The `{"id", "type", "data"}` shell common to every branch is
factored into `mkBlock`; branch order and content mirror the source's
`if/elif` chain.  The `.text` case cannot be reached from the converter
(`find_all(recursive=False)` yields only tag elements). -/
def elemBlockData : HNode → Option (String × Json)
  | .text _ => none
  | .elem name cs =>
    match headerLevel name with
    | some lvl =>
      let text := pyStrip (getTextList cs)
      if text ≠ "" then some ("header", .obj [("text", .str text), ("level", .num lvl)])
      else none
    | none =>
      if name = "blockquote" then
        let text := pyStrip (getTextList cs)
        if text ≠ "" then some ("quote", .obj [("text", .str text), ("caption", .str "")])
        else none
      else if name = "ul" then
        let items := liTexts cs
        if items ≠ [] then
          some ("list", .obj [("style", .str "unordered"), ("items", .arr (items.map .str))])
        else none
      else if name = "ol" then
        let items := liTexts cs
        if items ≠ [] then
          some ("list", .obj [("style", .str "ordered"), ("items", .arr (items.map .str))])
        else none
      else if name = "p" then
        let text := pyStrip (getTextList cs)
        if text ≠ "" then some ("paragraph", .obj [("text", .str text)])
        else none
      else
        let text := pyStrip (getTextList cs)
        if text ≠ "" then some ("paragraph", .obj [("text", .str text)])
        else none

/-- The `for element in soup.body.find_all(recursive=False): process_element`
loop: `blocks` accumulated in order, the id oracle indexed by the number of
blocks emitted so far (`uuid.uuid4()` per appended block). -/
def viewsBlocks (ids : Nat → String) : List HNode → Nat → List Json
  | [], _ => []
  | e :: es, k =>
    match elemBlockData e with
    | some td => mkBlock (ids k) td.1 td.2 :: viewsBlocks ids es (k + 1)
    | none => viewsBlocks ids es k

/-- `html_to_editorjs_blocks` (src/myApp/views.py lines 101-196).
`.error` embeds the uncaught `AttributeError` raised when `soup.body` is
`None` (the `html.parser` builder adds no `<body>` tag, so this happens for
every non-blank input without an explicit `body` element) and the code calls
`.find_all` on it. -/
def html_to_editorjs_blocks_views (now : Int) (ids : Nat → String) (html : String) :
    Except String Json :=
  if html = "" || pyStrip html = "" then .ok (topDoc now [])
  else
    match findBody (parseHtml html) with
    | none => .error "AttributeError"
    | some body => .ok (topDoc now (viewsBlocks ids (tagsOnly body) 0))

/- ----------------------------------------------------------------------
Block Converter, line-based variant
(`html_to_editorjs_blocks`, src/create_insights.py lines 37-88).
---------------------------------------------------------------------- -/

/-- The per-line `type`/`data` pair of the block appended by the line-based
converter's `if/elif` chain (src/create_insights.py lines 55-86), or `none`
when the line appends nothing (`<ul>`/`<ol>` lines are skipped by
`continue`; a line starting with `<` that matches no branch falls through
every `elif` and is dropped).  Branch order mirrors the source. -/
def ciLineBlock (line : String) : Option (String × Json) :=
  if pyStartsWith line "<h1>" then
    some ("header", .obj [("text", .str (pyStrip (stripTags line))), ("level", .num 1)])
  else if pyStartsWith line "<h2>" then
    some ("header", .obj [("text", .str (pyStrip (stripTags line))), ("level", .num 2)])
  else if pyStartsWith line "<h3>" then
    some ("header", .obj [("text", .str (pyStrip (stripTags line))), ("level", .num 3)])
  else if pyStartsWith line "<blockquote>" then
    some ("quote", .obj [("text", .str (pyStrip (stripTags line))), ("caption", .str "")])
  else if pyStartsWith line "<ul>" || pyStartsWith line "<ol>" then none
  else if pyStartsWith line "<li>" then
    some ("list", .obj [("style", .str "unordered"),
      ("items", .arr [.str (pyStrip (stripTags line))])])
  else if pyStartsWith line "<p>" then
    some ("paragraph", .obj [("text", .str (pyStrip (stripTags line)))])
  else if line ≠ "" && !(pyStartsWith line "<") then
    some ("paragraph", .obj [("text", .str line)])
  else none

/-- The `for line in lines` loop: each line is stripped, blank lines are
skipped, the rest dispatch through `ciLineBlock`. -/
def ciBlocks (ids : Nat → String) : List String → Nat → List Json
  | [], _ => []
  | l :: ls, k =>
    if pyStrip l = "" then ciBlocks ids ls k
    else
      match ciLineBlock (pyStrip l) with
      | some td => mkBlock (ids k) td.1 td.2 :: ciBlocks ids ls (k + 1)
      | none => ciBlocks ids ls k

/-- `html_to_editorjs_blocks` (src/create_insights.py lines 37-88): split on
newlines and dispatch per line; total on any string. -/
def html_to_editorjs_blocks_ci (now : Int) (ids : Nat → String) (html : String) : Json :=
  if html = "" || pyStrip html = "" then topDoc now []
  else topDoc now (ciBlocks ids (splitNl html) 0)

/-- The `"blocks"` entry of a converter document (a block list). -/
def blocksOf (doc : Json) : List Json :=
  match doc with
  | .obj fields =>
    match lookupField "blocks" fields with
    | some (.arr xs) => xs
    | _ => []
  | _ => []

/-- A fixed id oracle standing for concrete `uuid.uuid4()` draws. -/
def ids0 : Nat → String := fun k => toString k

/- ----------------------------------------------------------------------
Companion renderer: `_render_block`
(src/myApp/templatetags/editorjs.py, lines 14-58).
---------------------------------------------------------------------- -/

/-- `d.get(key)` on a JSON dict. -/
def dGet (d : Json) (key : String) : Option Json :=
  match d with
  | .obj fs => lookupField key fs
  | _ => none

/-- How a value is interpolated into an f-string.  The renderer only ever
receives strings (and numbers) in the interpolated positions of the
documents this repository builds; other shapes are out of scope and map
to `""`. -/
def jsonText : Json → String
  | .str s => s
  | .num n => toString n
  | _ => ""

/-- `d.get(key, dflt)` coerced to the interpolated string. -/
def dGetStr (d : Json) (key dflt : String) : String :=
  match dGet d key with
  | some v => jsonText v
  | none => dflt

/-- `d.get("level", 2)` — the numeric default case. -/
def dGetInt (d : Json) (key : String) (dflt : Int) : Int :=
  match dGet d key with
  | some (.num n) => n
  | _ => dflt

/-- `d.get(key, [])` as a list. -/
def dGetArr (d : Json) (key : String) : List Json :=
  match dGet d key with
  | some (.arr xs) => xs
  | _ => []

/-- A table row's cells (`for c in r`). -/
def rowCells : Json → List Json
  | .arr xs => xs
  | _ => []

/-- The body of `_render_block` after `t`/`d` extraction: one case per
`type` string, f-strings written as concatenations (`\x27` is the single
quote the source uses inside its double-quoted f-strings). -/
def render_block_typed (t : String) (d : Json) : String :=
  if t = "paragraph" then "<p class=\"mb-4\">" ++ dGetStr d "text" "" ++ "</p>"
  else if t = "header" then
    let level := dGetInt d "level" 2
    let text := dGetStr d "text" ""
    if level = 3 then "<h3 class=\"text-xl font-semibold mt-6 mb-3\">" ++ text ++ "</h3>"
    else "<h2 class=\"text-2xl font-bold mt-8 mb-4\">" ++ text ++ "</h2>"
  else if t = "list" then
    let style := dGetStr d "style" "unordered"
    let items := String.join ((dGetArr d "items").map (fun i => "<li>" ++ jsonText i ++ "</li>"))
    let cls := if style = "unordered" then "list-disc pl-6 mb-4" else "list-decimal pl-6 mb-4"
    let tag := if style = "unordered" then "ul" else "ol"
    "<" ++ tag ++ " class=\x27" ++ cls ++ "\x27>" ++ items ++ "</" ++ tag ++ ">"
  else if t = "quote" then
    "<blockquote class=\x27border-l-4 pl-4 italic my-6\x27>" ++ dGetStr d "text" "" ++
      "<div class=\x27text-sm mt-2 opacity-70\x27>" ++ dGetStr d "caption" "" ++
      "</div></blockquote>"
  else if t = "code" then
    "<pre class=\x27bg-gray-900 text-gray-100 rounded-lg p-4 overflow-auto my-4\x27><code>" ++
      dGetStr d "code" "" ++ "</code></pre>"
  else if t = "table" then
    let rows := dGetArr d "content"
    let inner :=
      match rows with
      | [] => ""
      | r0 :: rest =>
        let head := "<thead><tr>" ++
          String.join ((rowCells r0).map
            (fun c => "<th class=\x27px-3 py-2 text-left\x27>" ++ jsonText c ++ "</th>")) ++
          "</tr></thead>"
        let body := "<tbody>" ++
          String.join (rest.map (fun r => "<tr>" ++
            String.join ((rowCells r).map
              (fun c => "<td class=\x27px-3 py-2\x27>" ++ jsonText c ++ "</td>")) ++
            "</tr>")) ++ "</tbody>"
        head ++ body
    "<div class=\x27overflow-x-auto my-4\x27><table class=\x27min-w-full border divide-y\x27>" ++
      inner ++ "</table></div>"
  else if t = "image" then
    let fileUrl :=
      match dGet d "file" with
      | some f => dGetStr f "url" ""
      | none => ""
    let url := if fileUrl ≠ "" then fileUrl else dGetStr d "url" ""
    let cap := dGetStr d "caption" ""
    let alt := dGetStr d "alt" ""
    if url = "" then ""
    else
      "<figure class=\x27my-6\x27><img src=\x27" ++ url ++ "\x27 alt=\x27" ++ alt ++
        "\x27 loading=\x27lazy\x27 class=\x27rounded-xl shadow\x27/>" ++
        "<figcaption class=\x27text-sm text-gray-500 mt-2\x27>" ++ cap ++
        "</figcaption></figure>"
  else if t = "delimiter" then "<hr class=\x27my-8\x27/>"
  else ""

/-- `_render_block(b)` (src/myApp/templatetags/editorjs.py, lines 14-58):
`t = b.get("type")`, `d = b.get("data", {})`, then dispatch on `t`; a
missing or non-string `type` falls through every case to `return ""`. -/
def render_block (b : Json) : String :=
  let d := (dGet b "data").getD (.obj [])
  match dGet b "type" with
  | some (.str t) => render_block_typed t d
  | _ => ""

/-- Modelled from the spec: the HTML escaping the spec requires of the
renderer for interpolated text ("escaping all interpolated text to prevent
injection").  Standard HTML entity escaping of the five metacharacters, as
`django.utils.html.escape` does; used only to compare against what
`_render_block` actually emits — no escaping function exists in the source. -/
def escapeHtmlSpec (s : String) : String :=
  ⟨s.data.flatMap (fun c =>
    if c = '&' then "&amp;".data
    else if c = '<' then "&lt;".data
    else if c = '>' then "&gt;".data
    else if c = '"' then "&quot;".data
    else if c = '\x27' then "&#x27;".data
    else [c])⟩

/-- A 60-character seed, at the truncation limit of `unique_slug`. -/
def sixtyA : String := ⟨List.replicate 60 'a'⟩

/-- An element of the constrained input grammar that carries non-empty
visible text: `p`/`h1`–`h6`/`blockquote` with non-blank visible text, or
`ul`/`ol` with at least one `li` whose visible text is non-blank. -/
def RecognizedBlockElem : HNode → Prop
  | .text _ => False
  | .elem name cs =>
    (name ∈ (["p", "h1", "h2", "h3", "h4", "h5", "h6", "blockquote"] : List String)
      ∧ pyStrip (getTextList cs) ≠ "")
    ∨ ((name = "ul" ∨ name = "ol")
      ∧ ∃ li ∈ findLisList cs, pyStrip (HNode.getText li) ≠ "")

/- ----------------------------------------------------------------------
Helper lemmas about the collision loop.
---------------------------------------------------------------------- -/

/-- Whatever the collision loop returns fails the predicate. -/
lemma slug_try_not_exists (P : String → Bool) (seed : String) :
    ∀ fuel i s, slug_try P seed i fuel = some s → P s = false := by
  intro fuel
  induction fuel with
  | zero => intro i s h; simp [slug_try] at h
  | succ n ih =>
    intro i s h
    rw [slug_try] at h
    by_cases hp : P (seed ++ "-" ++ toString i) = true
    · rw [if_pos hp] at h
      exact ih (i + 1) s h
    · rw [if_neg hp] at h
      cases h
      exact Bool.not_eq_true _ |>.mp hp

/-- If every candidate from index `i` on collides, the loop never returns. -/
lemma slug_try_forever (P : String → Bool) (seed : String)
    (h : ∀ i, 2 ≤ i → P (seed ++ "-" ++ toString i) = true) :
    ∀ fuel i, 2 ≤ i → slug_try P seed i fuel = none := by
  intro fuel
  induction fuel with
  | zero => intro i _; rfl
  | succ n ih =>
    intro i hi
    rw [slug_try, if_pos (h i hi)]
    exact ih (i + 1) (by omega)

/-- If the candidate at offset `m` from `i` is the first one (from `i` on)
to fail the predicate, the loop returns exactly it, given fuel for `m + 1`
probes. -/
lemma slug_try_first_free (P : String → Bool) (seed : String) :
    ∀ m i fuel, m < fuel →
      P (seed ++ "-" ++ toString (i + m)) = false →
      (∀ j, i ≤ j → j < i + m → P (seed ++ "-" ++ toString j) = true) →
      slug_try P seed i fuel = some (seed ++ "-" ++ toString (i + m)) := by
  intro m
  induction m with
  | zero =>
    intro i fuel hfuel hfail _
    obtain ⟨f, rfl⟩ : ∃ f, fuel = f + 1 := ⟨fuel - 1, by omega⟩
    rw [Nat.add_zero] at hfail
    rw [slug_try, if_neg (by simp [hfail])]
    simp
  | succ m ih =>
    intro i fuel hfuel hfail hmin
    obtain ⟨f, rfl⟩ : ∃ f, fuel = f + 1 := ⟨fuel - 1, by omega⟩
    have harith : i + 1 + m = i + (m + 1) := by omega
    rw [slug_try, if_pos (hmin i le_rfl (by omega))]
    have hres := ih (i + 1) f (by omega) (by rw [harith]; exact hfail)
      (fun j hj hj2 => hmin j (by omega) (by omega))
    rw [harith] at hres
    exact hres
/-- C5: for every seed string and every existence predicate for which the
allocation loop terminates, the string `unique_slug` returns does not
satisfy the predicate at the instant of return. -/
theorem unique_slug_result_not_exists (P : String → Bool) (base : String)
    (fuel : Nat) (s : String) (h : unique_slug P base fuel = some s) :
    P s = false := by
  rw [unique_slug] at h
  cases hps : P (slug_seed base) with
  | false =>
    rw [hps] at h
    simp at h
    rw [← h]
    exact hps
  | true =>
    rw [hps] at h
    simp at h
    exact slug_try_not_exists P (slug_seed base) fuel 2 s h

/-- C5 witness: with the always-false predicate, the allocator returns
`"hello-world"` for seed `"Hello, World!"`, and the predicate is false on it. -/
theorem unique_slug_result_not_exists_witness :
    unique_slug (fun _ => false) "Hello, World!" 0 = some "hello-world" ∧
      (fun _ => false) "hello-world" = false :=
  ⟨by decide,
    unique_slug_result_not_exists (fun _ => false) "Hello, World!" 0 "hello-world" (by decide)⟩

/-- C4: on collision, `unique_slug` appends numeric suffixes `-2, -3, …` to
the normalized seed, incrementing until the predicate returns false: when
the seed collides and `i` is the first suffix index at least 2 whose
candidate is free, the allocator returns `seed-i`. -/
theorem unique_slug_appends_suffixes (P : String → Bool) (base : String)
    (i fuel : Nat) (h2 : 2 ≤ i) (hfuel : i ≤ fuel + 1)
    (hseed : P (slug_seed base) = true)
    (hfail : P (slug_seed base ++ "-" ++ toString i) = false)
    (hmin : ∀ j, 2 ≤ j → j < i → P (slug_seed base ++ "-" ++ toString j) = true) :
    unique_slug P base fuel = some (slug_seed base ++ "-" ++ toString i) := by
  rw [unique_slug]
  simp only [hseed, Bool.not_true, Bool.false_eq_true, if_false]
  have harith : 2 + (i - 2) = i := by omega
  have h := slug_try_first_free P (slug_seed base) (i - 2) 2 fuel (by omega)
    (by rw [harith]; exact hfail)
    (fun j hj hj2 => hmin j hj (by omega))
  rw [harith] at h
  exact h

/-- C4 witness: with a predicate true exactly on `"hello-world"` and
`"hello-world-2"`, allocating for `"Hello, World!"` returns
`"hello-world-3"`. -/
theorem unique_slug_appends_suffixes_witness :
    unique_slug (fun s => s == "hello-world" || s == "hello-world-2") "Hello, World!" 5 =
      some "hello-world-3" := by
  have h := unique_slug_appends_suffixes
    (fun s => s == "hello-world" || s == "hello-world-2") "Hello, World!" 3 5
    (by omega) (by omega) (by decide) (by decide)
    (by
      intro j hj hj2
      obtain rfl : j = 2 := by omega
      decide)
  have e : slug_seed "Hello, World!" ++ "-" ++ toString 3 = "hello-world-3" := by decide
  rwa [e] at h

/-- C8: the collision loop enforces no upper bound on the suffix — if every
candidate in the sequence `seed, seed-2, seed-3, …` satisfies the
predicate, the loop returns `none` for every amount of fuel (it would loop
forever); and it terminates exactly when some candidate in that sequence
fails the predicate, returning the first such candidate. -/
theorem unique_slug_unbounded (P : String → Bool) (base : String) :
    ((∀ k, P (slug_cand base k) = true) → ∀ fuel, unique_slug P base fuel = none)
    ∧ (∀ k fuel, P (slug_cand base k) = false →
        (∀ j, j < k → P (slug_cand base j) = true) → k ≤ fuel →
        unique_slug P base fuel = some (slug_cand base k)) := by
  constructor
  · intro hall fuel
    have h0 : P (slug_seed base) = true := hall 0
    rw [unique_slug]
    simp only [h0, Bool.not_true, Bool.false_eq_true, if_false]
    refine slug_try_forever P (slug_seed base) (fun i hi => ?_) fuel 2 le_rfl
    obtain ⟨m, rfl⟩ : ∃ m, i = m + 2 := ⟨i - 2, by omega⟩
    have h := hall (m + 1)
    simpa [slug_cand] using h
  · intro k fuel hk hmin hfuel
    cases k with
    | zero =>
      have hk0 : P (slug_seed base) = false := hk
      rw [unique_slug]
      simp only [hk0, Bool.not_false, if_true]
      rfl
    | succ m =>
      have hseed : P (slug_seed base) = true := hmin 0 (by omega)
      rw [unique_slug]
      simp only [hseed, Bool.not_true, Bool.false_eq_true, if_false]
      have harith : 2 + m = m + 2 := by omega
      have h := slug_try_first_free P (slug_seed base) m 2 fuel (by omega)
        (by rw [harith]; exact hk)
        (by
          intro j hj hj2
          obtain ⟨n, rfl⟩ : ∃ n, j = n + 2 := ⟨j - 2, by omega⟩
          have h := hmin (n + 1) (by omega)
          simpa [slug_cand] using h)
      rw [harith] at h
      exact h

/-- C8 witness: the always-true predicate exhausts any fuel (`none`), and a
predicate failing first at `seed-2` terminates with `seed-2`. -/
theorem unique_slug_unbounded_witness :
    unique_slug (fun _ => true) "Hello, World!" 37 = none ∧
      unique_slug (fun s => s == "hello-world") "Hello, World!" 5 = some "hello-world-2" := by
  constructor
  · exact (unique_slug_unbounded (fun _ => true) "Hello, World!").1 (fun _ => rfl) 37
  · have h := (unique_slug_unbounded (fun s => s == "hello-world") "Hello, World!").2 1 5
      (by decide)
      (by
        intro j hj
        obtain rfl : j = 0 := by omega
        decide)
      (by omega)
    have e : slug_cand "Hello, World!" 1 = "hello-world-2" := by decide
    rwa [e] at h

/-- C10: `unique_slug` truncates only the base candidate to 60 characters
(`slugify(base)[:60]`); collision suffixes are appended without
re-truncation, so a 60-character base that collides once yields a
62-character result. -/
theorem unique_slug_no_retruncation :
    slug_seed sixtyA = sixtyA ∧
      slug_seed (sixtyA ++ "aaa") = sixtyA ∧
      unique_slug (fun s => s == sixtyA) sixtyA 3 = some (sixtyA ++ "-2") ∧
      (sixtyA ++ "-2").length = 62 := by
  refine ⟨by decide, by decide, by decide, by decide⟩

/- ----------------------------------------------------------------------
Helper lemmas about the converters.
---------------------------------------------------------------------- -/

/-- A recognized non-blank element always yields a block. -/
lemma elemBlockData_isSome_of_recognized (e : HNode) (h : RecognizedBlockElem e) :
    (elemBlockData e).isSome := by
  cases e with
  | text s => simp [RecognizedBlockElem] at h
  | elem name cs =>
    rcases h with ⟨hname, htext⟩ | ⟨hname, li, hli, _⟩
    · fin_cases hname <;> simp [elemBlockData, headerLevel, htext]
    · have hfl : findLisList cs ≠ [] := List.ne_nil_of_mem hli
      have hitems : liTexts cs ≠ [] := by
        simp [liTexts, hfl]
      rcases hname with rfl | rfl <;> simp [elemBlockData, headerLevel, hitems]

/-- Every block the soup-based loop emits has the `id`/`type`/`data` shell. -/
lemma viewsBlocks_keys (ids : Nat → String) :
    ∀ (es : List HNode) (k : Nat) (b : Json), b ∈ viewsBlocks ids es k →
      objKeys b = ["id", "type", "data"] := by
  intro es
  induction es with
  | nil => intro k b hb; simp [viewsBlocks] at hb
  | cons e es ih =>
    intro k b hb
    rw [viewsBlocks] at hb
    cases hd : elemBlockData e with
    | none => rw [hd] at hb; exact ih k b hb
    | some td =>
      rw [hd] at hb
      rcases List.mem_cons.mp hb with rfl | hb2
      · rfl
      · exact ih (k + 1) b hb2

/-- Every block the line-based loop emits has the `id`/`type`/`data` shell. -/
lemma ciBlocks_keys (ids : Nat → String) :
    ∀ (ls : List String) (k : Nat) (b : Json), b ∈ ciBlocks ids ls k →
      objKeys b = ["id", "type", "data"] := by
  intro ls
  induction ls with
  | nil => intro k b hb; simp [ciBlocks] at hb
  | cons l ls ih =>
    intro k b hb
    rw [ciBlocks] at hb
    by_cases hl : pyStrip l = ""
    · rw [if_pos hl] at hb; exact ih k b hb
    · rw [if_neg hl] at hb
      cases hd : ciLineBlock (pyStrip l) with
      | none => rw [hd] at hb; exact ih k b hb
      | some td =>
        rw [hd] at hb
        rcases List.mem_cons.mp hb with rfl | hb2
        · rfl
        · exact ih (k + 1) b hb2

/- ----------------------------------------------------------------------
Claim theorems about the converters.
---------------------------------------------------------------------- -/

/-- C1 (code bug): the converter is not total.  The soup-based converter
evaluates `soup.body`, which is `None` for `"<p>hi</p>"` because the
`html.parser` builder adds no `<body>` tag, and calling `.find_all` on it
raises `AttributeError` instead of returning a document; the line-based
variant additionally drops an unrecognized tagged line (`<div>…</div>`)
entirely instead of degrading it to a paragraph block. -/
theorem converter_not_total :
    html_to_editorjs_blocks_views 0 ids0 "<p>hi</p>" = .error "AttributeError" ∧
      blocksOf (html_to_editorjs_blocks_ci 0 ids0 "<div>hello</div>") = [] :=
  ⟨rfl, rfl⟩

/-- C2 counterexample: for the one-element input
`"<ul><li>A</li><li>B</li></ul>"` (allowed elements, non-empty text) the
claim predicts exactly one block; the soup-based converter raises instead
(no `<body>`), the line-based converter produces zero blocks for the
single-line form and two blocks (one per `li`) for the multi-line form. -/
theorem block_count_cex :
    html_to_editorjs_blocks_views 0 ids0 "<ul><li>A</li><li>B</li></ul>" =
        .error "AttributeError" ∧
      blocksOf (html_to_editorjs_blocks_ci 0 ids0 "<ul><li>A</li><li>B</li></ul>") = [] ∧
      (blocksOf
        (html_to_editorjs_blocks_ci 0 ids0 "<ul>\n<li>A</li>\n<li>B</li>\n</ul>")).length = 2 :=
  ⟨rfl, rfl, rfl⟩

/-- C2 (amended): at the element level of the soup-based converter — the
`process_element` loop over the parsed elements — every sequence of
`p`/`h1`–`h6`/`blockquote`/`ul`/`ol` elements carrying non-empty text
yields exactly one block per element (all `li` of one list folded into its
single list block). -/
theorem viewsBlocks_conserves_count (ids : Nat → String) (es : List HNode)
    (h : ∀ e ∈ es, RecognizedBlockElem e) :
    ∀ k, (viewsBlocks ids es k).length = es.length := by
  induction es with
  | nil => intro k; rfl
  | cons e es ih =>
    intro k
    rw [viewsBlocks]
    have hs := elemBlockData_isSome_of_recognized e (h e (List.mem_cons_self e es))
    obtain ⟨td, htd⟩ := Option.isSome_iff_exists.mp hs
    rw [htd]
    simp only [List.length_cons]
    rw [ih (fun x hx => h x (List.mem_cons_of_mem e hx)) (k + 1)]

/-- C2 witness: a single non-blank paragraph element yields one block. -/
theorem viewsBlocks_conserves_count_witness :
    (∀ e ∈ [HNode.elem "p" [HNode.text "hi"]], RecognizedBlockElem e) ∧
      (viewsBlocks ids0 [HNode.elem "p" [HNode.text "hi"]] 0).length = 1 := by
  have hp : ∀ e ∈ [HNode.elem "p" [HNode.text "hi"]], RecognizedBlockElem e := by
    intro e he
    rw [List.mem_singleton] at he
    subst he
    exact Or.inl ⟨by decide, by decide⟩
  exact ⟨hp, viewsBlocks_conserves_count ids0 _ hp 0⟩

/-- C3 counterexample: on the literal test inputs, the soup-based converter
raises (`soup.body` is `None` without a `<body>` tag) instead of producing
the claimed header block, and the line-based converter produces zero blocks
for the single-line list instead of the claimed one list block. -/
theorem literal_mapping_cex :
    html_to_editorjs_blocks_views 0 ids0 "<h2>Why Preventive Beats Reactive</h2>" =
        .error "AttributeError" ∧
      blocksOf (html_to_editorjs_blocks_ci 0 ids0 "<ul><li>A</li><li>B</li></ul>") = [] :=
  ⟨rfl, rfl⟩

/-- C3 (amended): the line-based converter maps the `<h2>` input to exactly
the claimed header block; the soup-based converter maps both literal inputs
to exactly the claimed blocks once they are wrapped in an explicit `<body>`
element (without which it raises, see C1). -/
theorem literal_mapping_amended :
    html_to_editorjs_blocks_ci 0 ids0 "<h2>Why Preventive Beats Reactive</h2>" =
        topDoc 0 [mkBlock "0" "header"
          (.obj [("text", .str "Why Preventive Beats Reactive"), ("level", .num 2)])] ∧
      html_to_editorjs_blocks_views 0 ids0
          "<body><h2>Why Preventive Beats Reactive</h2></body>" =
        .ok (topDoc 0 [mkBlock "0" "header"
          (.obj [("text", .str "Why Preventive Beats Reactive"), ("level", .num 2)])]) ∧
      html_to_editorjs_blocks_views 0 ids0 "<body><ul><li>A</li><li>B</li></ul></body>" =
        .ok (topDoc 0 [mkBlock "0" "list"
          (.obj [("style", .str "unordered"), ("items", .arr [.str "A", .str "B"])])]) :=
  ⟨rfl, rfl, rfl⟩

/-- C6 counterexample: the top-level timestamp field of a converted document
is named `time`, not `generated_at`. -/
theorem generated_at_cex :
    objKeys (html_to_editorjs_blocks_ci 0 ids0 "<p>hi</p>") = ["time", "blocks", "version"] ∧
      "generated_at" ∉ objKeys (html_to_editorjs_blocks_ci 0 ids0 "<p>hi</p>") :=
  ⟨rfl, by decide⟩

/-- C6 (amended): every document either converter returns serializes to
`{"time": …, "blocks": [{"id": …, "type": …, "data": …}, …], "version": …}`
— the claimed wire shape except that the timestamp field is named `time`,
not `generated_at`. -/
theorem converter_doc_shape (now : Int) (ids : Nat → String) (html : String) (doc : Json)
    (h : html_to_editorjs_blocks_views now ids html = .ok doc) :
    (objKeys doc = ["time", "blocks", "version"] ∧
        ∀ b ∈ blocksOf doc, objKeys b = ["id", "type", "data"]) ∧
      (objKeys (html_to_editorjs_blocks_ci now ids html) = ["time", "blocks", "version"] ∧
        ∀ b ∈ blocksOf (html_to_editorjs_blocks_ci now ids html),
          objKeys b = ["id", "type", "data"]) := by
  constructor
  · rw [html_to_editorjs_blocks_views] at h
    split at h
    · cases h
      exact ⟨rfl, by intro b hb; simp [blocksOf, topDoc, lookupField] at hb⟩
    · cases hf : findBody (parseHtml html) with
      | none => rw [hf] at h; cases h
      | some body =>
        rw [hf] at h
        cases h
        refine ⟨rfl, ?_⟩
        intro b hb
        have hbs : blocksOf (topDoc now (viewsBlocks ids (tagsOnly body) 0)) =
            viewsBlocks ids (tagsOnly body) 0 := rfl
        rw [hbs] at hb
        exact viewsBlocks_keys ids (tagsOnly body) 0 b hb
  · rw [html_to_editorjs_blocks_ci]
    split
    · exact ⟨rfl, by intro b hb; simp [blocksOf, topDoc, lookupField] at hb⟩
    · refine ⟨rfl, ?_⟩
      intro b hb
      have hbs : blocksOf (topDoc now (ciBlocks ids (splitNl html) 0)) =
          ciBlocks ids (splitNl html) 0 := rfl
      rw [hbs] at hb
      exact ciBlocks_keys ids (splitNl html) 0 b hb

/-- C6 witness: shape of the documents converted from `<body><p>hi</p></body>`. -/
theorem converter_doc_shape_witness :
    html_to_editorjs_blocks_views 0 ids0 "<body><p>hi</p></body>" =
        .ok (topDoc 0 [mkBlock "0" "paragraph" (.obj [("text", .str "hi")])]) ∧
      objKeys (topDoc 0 [mkBlock "0" "paragraph" (.obj [("text", .str "hi")])]) =
        ["time", "blocks", "version"] := by
  have h := converter_doc_shape 0 ids0 "<body><p>hi</p></body>"
    (topDoc 0 [mkBlock "0" "paragraph" (.obj [("text", .str "hi")])]) rfl
  exact ⟨rfl, h.1.1⟩

/-- C7 counterexample: a list whose only item has empty text still produces
a `list` block (with the empty item retained) in the soup-based converter,
and the line-based converter emits a paragraph block for an empty `<p>`
element — the claim says no block is produced in either case. -/
theorem empty_elements_cex :
    html_to_editorjs_blocks_views 0 ids0 "<body><ul><li></li></ul></body>" =
        .ok (topDoc 0 [mkBlock "0" "list"
          (.obj [("style", .str "unordered"), ("items", .arr [.str ""])])]) ∧
      blocksOf (html_to_editorjs_blocks_ci 0 ids0 "<p></p>") =
        [mkBlock "0" "paragraph" (.obj [("text", .str "")])] :=
  ⟨rfl, rfl⟩

/-- C7 (amended): in the soup-based converter, a non-list element
(header, paragraph, blockquote, or fallback) whose trimmed visible text is
empty produces no block; but a `ul`/`ol` with at least one `li` produces a
`list` block even when every item is empty, retaining empty items as empty
strings (and the line-based converter checks emptiness nowhere at all, see
the counterexample). -/
theorem empty_text_skip_amended (name : String) (cs : List HNode)
    (hul : name ≠ "ul") (hol : name ≠ "ol")
    (htext : pyStrip (getTextList cs) = "") :
    elemBlockData (HNode.elem name cs) = none ∧
      elemBlockData (HNode.elem "ul" [HNode.elem "li" []]) =
        some ("list", Json.obj [("style", Json.str "unordered"),
          ("items", Json.arr [Json.str ""])]) := by
  refine ⟨?_, rfl⟩
  cases hl : headerLevel name with
  | some lvl => simp [elemBlockData, hl, htext]
  | none => simp [elemBlockData, hl, hul, hol, htext]

/-- C7 witness: an empty paragraph element yields no block, while the
all-empty one-item list yields a list block. -/
theorem empty_text_skip_amended_witness :
    elemBlockData (HNode.elem "p" []) = none ∧
      elemBlockData (HNode.elem "ul" [HNode.elem "li" []]) =
        some ("list", Json.obj [("style", Json.str "unordered"),
          ("items", Json.arr [Json.str ""])]) :=
  empty_text_skip_amended "p" [] (by decide) (by decide) rfl

/-- C9 counterexample: `_render_block` interpolates block text without any
escaping — a paragraph whose text is `<script>alert(1)</script>` renders
with the raw payload embedded in the HTML (whereas escaping it, as the
claim requires, would have changed it). -/
theorem render_block_injection_cex :
    render_block (mkBlock "b1" "paragraph"
        (.obj [("text", .str "<script>alert(1)</script>")])) =
      "<p class=\"mb-4\"><script>alert(1)</script></p>" ∧
      escapeHtmlSpec "<script>alert(1)</script>" ≠ "<script>alert(1)</script>" :=
  ⟨rfl, by decide⟩

/-- C9 (amended): `_render_block` inserts interpolated text verbatim —
unescaped — into its output HTML: for every text, the rendered paragraph is
literally the text between the fixed tags (sanitization, when it happens at
all, is a separate post-hoc `bleach.clean` pass over the joined output in
`render_editorjs`, applied only when the optional `bleach` library is
importable). -/
theorem render_block_verbatim (id text : String) :
    render_block (mkBlock id "paragraph" (.obj [("text", .str text)])) =
      "<p class=\"mb-4\">" ++ text ++ "</p>" :=
  rfl
